import Mathlib

set_option maxRecDepth 10000

/-!
Shallow embedding of the RAG core of this repository
(`src/lib/vector-store.ts` and `src/lib/rag-pipeline.ts`) together with
proofs about it.

Modelling conventions:

* JavaScript numbers are modelled by `JNum α`: a finite value drawn from a
  linear ordered field `α`, a signed infinity, or `NaN`.  Finite arithmetic
  is idealised (exact, no rounding or overflow); the NaN / infinity
  propagation rules of IEEE-754 that the code can actually hit
  (`0/0 → NaN`, `x/0 → ±∞`, `NaN` contagion, out-of-range indexing
  producing `undefined` which behaves as `NaN` in arithmetic) are modelled
  exactly.  The vector-store side is instantiated at `α = ℝ` because
  `Math.sqrt` appears there; the pipeline side, which only ever carries
  similarity values around, is instantiated at `α = ℚ` so that it stays
  computable.
* `fetch`-based effects (the embedding provider, the chat provider,
  `Date.now()`) are external to the core and enter the model as explicit
  parameters: an embedding oracle `String → List (JNum ℝ)`, an
  `Except`-valued stage outcome, and explicit clock values.
* `Array.prototype.sort` is required by ECMAScript to be stable, and for a
  consistent comparator its output is uniquely determined; we model it with
  the stable insertion sort `List.insertionSort`.  When the comparator is
  inconsistent (it returns `NaN`, which the JS sort treats as `0`,
  i.e. "equal") the ECMAScript ordering is implementation-defined, and the
  insertion-sort model realises one legitimate (and engine-realistic)
  choice of that behaviour.
* JS strings are Lean `String`s; `split`, `trim`, `toLowerCase`,
  `includes`, first-occurrence `replace` and the `\w`/`\s` character
  classes are modelled character by character (ASCII reading of the
  Unicode-aware originals, which is exact on the string constants involved).
-/

namespace RAG

/-- A JavaScript number: a finite field element, `±Infinity`, or `NaN`. -/
inductive JNum (α : Type) where
  | fin (x : α)
  | inf (pos : Bool)
  | nan
  deriving DecidableEq

namespace JNum

variable {α : Type} [LinearOrderedField α]

/-- JS addition (as used by `reduce((sum, v) => sum + ..., 0)`). -/
def jadd : JNum α → JNum α → JNum α
  | nan, _ => nan
  | _, nan => nan
  | fin x, fin y => fin (x + y)
  | fin _, inf b => inf b
  | inf b, fin _ => inf b
  | inf b, inf c => if b = c then inf b else nan

/-- JS subtraction (as used by the sort comparators `b.similarity - a.similarity`). -/
def jsub : JNum α → JNum α → JNum α
  | nan, _ => nan
  | _, nan => nan
  | fin x, fin y => fin (x - y)
  | fin _, inf b => inf (!b)
  | inf b, fin _ => inf b
  | inf b, inf c => if b = c then nan else inf b

/-- JS multiplication. -/
def jmul : JNum α → JNum α → JNum α
  | nan, _ => nan
  | _, nan => nan
  | fin x, fin y => fin (x * y)
  | fin x, inf b => if x = 0 then nan else inf (b == decide (0 < x))
  | inf b, fin x => if x = 0 then nan else inf (b == decide (0 < x))
  | inf b, inf c => inf (b == c)

/-- JS division: `0/0 = NaN`, `x/0 = ±Infinity` for `x ≠ 0`. -/
def jdiv : JNum α → JNum α → JNum α
  | nan, _ => nan
  | _, nan => nan
  | fin x, fin y =>
      if y = 0 then (if x = 0 then nan else inf (decide (0 < x))) else fin (x / y)
  | fin _, inf _ => fin 0
  | inf b, fin y => inf (b == decide (0 ≤ y))
  | inf _, inf _ => nan

/-- JS `<` (false whenever an operand is `NaN`). -/
def jltB : JNum α → JNum α → Bool
  | nan, _ => false
  | _, nan => false
  | fin x, fin y => decide (x < y)
  | fin _, inf b => b
  | inf b, fin _ => !b
  | inf b, inf c => !b && c

/-- JS `≤` (false whenever an operand is `NaN`). -/
def jleB : JNum α → JNum α → Bool
  | nan, _ => false
  | _, nan => false
  | fin x, fin y => decide (x ≤ y)
  | fin _, inf b => b
  | inf b, fin _ => !b
  | inf b, inf c => !b || c

/-- Whether a JS comparator result is treated as "keep the current order" by
`Array.prototype.sort`: a comparator value `≤ 0`, with the ECMAScript rule
that a `NaN` comparator value counts as `+0`, i.e. "equal". -/
def cmpNonPosB : JNum α → Bool
  | nan => true
  | fin v => decide (v ≤ 0)
  | inf b => !b

/-- `Math.sqrt` on a JS number. -/
noncomputable def jsqrt : JNum ℝ → JNum ℝ
  | nan => nan
  | inf true => inf true
  | inf false => nan
  | fin x => if x < 0 then nan else fin (Real.sqrt x)

end JNum

open JNum

/-- `a[i]` on a JS number array, out-of-range access yielding `undefined`,
which behaves as `NaN` in the arithmetic it is fed to here. -/
def jget {α : Type} (l : List (JNum α)) (i : ℕ) : JNum α :=
  l.getD i JNum.nan

/-- `metadata.type` of a stored document (`'text' | 'file' | 'website'`,
`src/lib/vector-store.ts` line 8). -/
inductive DocKind where
  | text
  | file
  | website
  deriving DecidableEq

/-- `VectorDocument.metadata` (`src/lib/vector-store.ts` lines 6-11).
`timestamp : ℤ` stands for the `Date` value. -/
structure DocMeta where
  name : String
  type : DocKind
  size : Option ℤ
  timestamp : ℤ
  deriving DecidableEq

/-- `VectorDocument` (`src/lib/vector-store.ts` lines 2-12), generic in the
number representation of the embedding entries. -/
structure VectorDocument (α : Type) where
  id : String
  content : String
  embedding : List (JNum α)
  metadata : DocMeta

/-- `SearchResult` (`src/lib/vector-store.ts` lines 14-17). -/
structure SearchResult (α : Type) where
  document : VectorDocument α
  similarity : JNum α

/-- `cosineSimilarity` (`src/lib/vector-store.ts` lines 20-25), verbatim:
`a.reduce((sum, val, i) => sum + val * b[i], 0)` for the dot product and
`Math.sqrt(v.reduce((sum, val) => sum + val * val, 0))` for the magnitudes,
with NO guard on the zero denominator. -/
noncomputable def cosineSimilarity (a b : List (JNum ℝ)) : JNum ℝ :=
  let dotProduct := a.enum.foldl (fun sum iv => jadd sum (jmul iv.2 (jget b iv.1))) (JNum.fin 0)
  let magnitudeA := jsqrt (a.foldl (fun sum val => jadd sum (jmul val val)) (JNum.fin 0))
  let magnitudeB := jsqrt (b.foldl (fun sum val => jadd sum (jmul val val)) (JNum.fin 0))
  jdiv dotProduct (jmul magnitudeA magnitudeB)

/-- The sort relation realising `results.sort((a, b) => b.similarity - a.similarity)`:
`x` stays before `y` iff the comparator value `y.similarity - x.similarity`
is `≤ 0` (a `NaN` comparator value counting as `0`). -/
def jsSortRel {α : Type} [LinearOrderedField α] (x y : SearchResult α) : Prop :=
  cmpNonPosB (jsub y.similarity x.similarity) = true

instance {α : Type} [LinearOrderedField α] : DecidableRel (jsSortRel (α := α)) :=
  fun _ _ => inferInstanceAs (Decidable (_ = true))

/-- The stable sort `results.sort((a, b) => b.similarity - a.similarity)`
(`src/lib/vector-store.ts` line 220, `src/lib/rag-pipeline.ts` lines 30-32). -/
def sortJS {α : Type} [LinearOrderedField α] (l : List (SearchResult α)) : List (SearchResult α) :=
  l.insertionSort jsSortRel

/-- The filter `result.similarity > 0.1` (`src/lib/vector-store.ts` line 222). -/
def aboveCutoff {α : Type} [LinearOrderedField α] (r : SearchResult α) : Bool :=
  jltB (JNum.fin (1 / 10)) r.similarity

/-- The mapping of stored documents to scored results
(`src/lib/vector-store.ts` lines 213-216). -/
noncomputable def resultsOf (queryVector : List (JNum ℝ)) (documents : List (VectorDocument ℝ)) :
    List (SearchResult ℝ) :=
  documents.map fun doc => ⟨doc, cosineSimilarity queryVector doc.embedding⟩

/-- `VectorStore.search` (`src/lib/vector-store.ts` lines 208-223) with the
embedding call's result passed in as `queryVector` (the call itself is a
network effect; see `searchWithEmbedCalls` for the call-count view):
early return on the empty store, then map to similarities, sort descending,
`slice(0, topK)`, and drop results with similarity `≤ 0.1`. -/
noncomputable def search (queryVector : List (JNum ℝ)) (documents : List (VectorDocument ℝ))
    (topK : ℕ) : List (SearchResult ℝ) :=
  if documents.length = 0 then []
  else ((sortJS (resultsOf queryVector documents)).take topK).filter aboveCutoff

/-- `VectorStore.search` again, instrumented with the number of
`generateEmbedding` invocations it performs: the empty-store early return
(line 209) happens before the embedding call (line 211). -/
noncomputable def searchWithEmbedCalls (embed : String → List (JNum ℝ)) (query : String)
    (documents : List (VectorDocument ℝ)) (topK : ℕ) :
    List (SearchResult ℝ) × ℕ :=
  if documents.length = 0 then ([], 0)
  else (search (embed query) documents topK, 1)

/-- `VectorStore.addDocument` (`src/lib/vector-store.ts` lines 181-199) acting
on the private `documents` array; `embedding` is the value produced by the
(external, fallible-with-fallback) `generateEmbedding(content)` call:
remove any existing document with the same id, then push the new one. -/
def addDocument (documents : List (VectorDocument ℝ)) (id content : String)
    (embedding : List (JNum ℝ)) (metadata : DocMeta) : List (VectorDocument ℝ) :=
  (documents.filter fun doc => doc.id != id) ++ [⟨id, content, embedding, metadata⟩]

/-- `VectorStore.removeDocument` (`src/lib/vector-store.ts` lines 202-206),
state part: keep every document whose id differs. -/
def removeDocument (documents : List (VectorDocument ℝ)) (id : String) :
    List (VectorDocument ℝ) :=
  documents.filter fun doc => doc.id != id

/-! ### JS string primitives used by the pipeline and the lexical vectorizer -/

/-- The `\s` character class (ASCII whitespace). -/
def isWsChar (c : Char) : Bool :=
  c == ' ' || c == '\t' || c == '\n' || c == '\r' || c == '\x0b' || c == '\x0c'

/-- The `\w` character class: `[A-Za-z0-9_]`. -/
def isWordChar (c : Char) : Bool :=
  (decide ('a' ≤ c) && decide (c ≤ 'z')) || (decide ('A' ≤ c) && decide (c ≤ 'Z')) ||
    (decide ('0' ≤ c) && decide (c ≤ '9')) || c == '_'

/-- Worker for `String.split(/[class]+/)`: walk the characters, emitting the
token collected so far at the start of each separator run.  The `skipping`
flag records being inside a separator run (so further separator characters
extend the run instead of emitting empty tokens). -/
def splitRunsAux (p : Char → Bool) : List Char → List Char → Bool → List String
  | [], acc, _ => [String.mk acc.reverse]
  | c :: cs, acc, skipping =>
    if p c then
      if skipping then splitRunsAux p cs acc true
      else String.mk acc.reverse :: splitRunsAux p cs [] true
    else splitRunsAux p cs (c :: acc) false

/-- `s.split(/[class]+/)` for a character class `p`: JS semantics, so a
leading (trailing) separator run yields a leading (trailing) empty piece and
the empty string splits to `[""]`. -/
def splitRuns (p : Char → Bool) (s : String) : List String :=
  splitRunsAux p s.data [] false

/-- `s.split(/\s+/)` (note: this KEEPS empty pieces, exactly as JS does). -/
def jsSplitWs (s : String) : List String :=
  splitRuns isWsChar s

/-- `s.trim()`. -/
def jsTrim (s : String) : String :=
  String.mk (((s.data.dropWhile isWsChar).reverse.dropWhile isWsChar).reverse)

/-- `s.toLowerCase()` (ASCII reading). -/
def jsToLower (s : String) : String :=
  String.mk (s.data.map Char.toLower)

/-- `s.includes(sub)`. -/
def jsIncludes (s sub : String) : Bool :=
  s.data.tails.any fun t => sub.data.isPrefixOf t

/-- Worker for first-occurrence string `replace`: returns `none` when the
pattern does not occur. -/
def replFirstAux (pat rep : List Char) : List Char → Option (List Char)
  | [] => if pat.isPrefixOf ([] : List Char) then some rep else none
  | c :: cs =>
    if pat.isPrefixOf (c :: cs) then some (rep ++ (c :: cs).drop pat.length)
    else (replFirstAux pat rep cs).map (c :: ·)

/-- `s.replace(pat, rep)` with a STRING pattern: JS replaces only the first
occurrence of `pat` as a substring (not as a token). -/
def jsReplaceFirst (s pat rep : String) : String :=
  match replFirstAux pat.data rep.data s.data with
  | some r => String.mk r
  | none => s

/-- `text.match(/\b\w+\b/g) || []`: the maximal runs of word characters. -/
def wordTokens (s : String) : List String :=
  (splitRuns (fun c => !isWordChar c) s).filter fun t => t != ""

/-- Whitespace-token count of a string: the number of maximal nonempty
whitespace-free runs.  Modelled from the spec: this is the measure "the
output's whitespace-token count" with which §8 states the context budget. -/
def wsTokenCount (s : String) : ℕ :=
  ((jsSplitWs s).filter fun t => t != "").length

/-! ### The lexical fallback vectorizer (`textToVector`) -/

/-- The `commonWords` vocabulary (`src/lib/vector-store.ts` lines 61-166),
all 104 entries in source order. -/
def commonWords : List String :=
  ["the", "and", "or", "but", "in", "on", "at", "to", "for", "of",
   "with", "by", "from", "up", "about", "into", "through", "during", "before", "after",
   "above", "below", "between", "among", "within", "without", "under", "over", "across", "behind",
   "beyond", "beside", "data", "information", "system", "process", "method", "result", "analysis", "research",
   "study", "report", "document", "content", "text", "file", "website", "application", "software", "technology",
   "computer", "digital", "online", "internet", "web", "database", "algorithm", "model", "machine", "learning",
   "artificial", "intelligence", "neural", "network", "deep", "training", "prediction", "classification", "feature", "pattern",
   "recognition", "natural", "language", "processing", "semantic", "similarity", "vector", "embedding", "retrieval", "generation",
   "query", "search", "index", "knowledge", "base", "repository", "storage", "memory", "cache", "optimization",
   "performance", "efficiency", "accuracy", "precision", "recall", "evaluation", "metric", "score", "threshold", "parameter",
   "configuration", "setting", "option", "choice"]

/-- `textToVector` (`src/lib/vector-store.ts` lines 51-176): lowercase word
tokens, term frequency over total token count per vocabulary word (an
UNGUARDED division, `0/0 = NaN` on token-free text), then pad with zeros /
truncate to exactly 100 dimensions.  Instantiated at `ℚ` (the values are
ratios of token counts). -/
def textToVector (text : String) : List (JNum ℚ) :=
  let words := wordTokens (jsToLower text)
  let vector := commonWords.map fun w =>
    jdiv (JNum.fin ((words.count w : ℕ) : ℚ)) (JNum.fin ((words.length : ℕ) : ℚ))
  (vector ++ List.replicate (100 - vector.length) (JNum.fin 0)).take 100

/-- One mutation of the store: `addDocument` (with the embedding the provider
returned for the content) or `removeDocument`. -/
inductive StoreOp where
  | add (id content : String) (embedding : List (JNum ℝ)) (metadata : DocMeta)
  | remove (id : String)

/-- Apply one store mutation. -/
def applyOp (documents : List (VectorDocument ℝ)) : StoreOp → List (VectorDocument ℝ)
  | StoreOp.add id content embedding metadata => addDocument documents id content embedding metadata
  | StoreOp.remove id => removeDocument documents id

/-- Run a sequence of mutations starting from the empty store. -/
def runOps (ops : List StoreOp) : List (VectorDocument ℝ) :=
  ops.foldl applyOp []

/-! ### The RAG pipeline (`src/lib/rag-pipeline.ts`), instantiated at `ℚ` -/

/-- `Math.round(x)` as a JS number (round half toward `+∞`). -/
def jsRoundNum (x : JNum ℚ) : JNum ℚ :=
  match x with
  | JNum.fin v => JNum.fin ((⌊v + 1 / 2⌋ : ℤ) : ℚ)
  | other => other

/-- The decimal rendering of `Math.round(x)` as interpolated into a template
string. -/
def jsRoundStr (x : JNum ℚ) : String :=
  match x with
  | JNum.fin v => toString (⌊v + 1 / 2⌋ : ℤ)
  | JNum.inf true => "Infinity"
  | JNum.inf false => "-Infinity"
  | JNum.nan => "NaN"

/-- `RAGContext` (`src/lib/rag-pipeline.ts` lines 4-9). -/
structure RAGContext where
  query : String
  retrievedDocuments : List (SearchResult ℚ)
  contextWindow : String
  confidence : JNum ℚ

/-- `RAGResponse` (`src/lib/rag-pipeline.ts` lines 11-16). -/
structure RAGResponse where
  answer : String
  context : RAGContext
  sources : List (SearchResult ℚ)
  processingTime : ℤ

/-- The JS whitespace-split token count `content.split(/\s+/).length` used by
`buildContext` (`src/lib/rag-pipeline.ts` line 36).  NOTE: this counts the
empty pieces a leading/trailing whitespace produces, exactly as JS does. -/
def docTokens (content : String) : ℕ :=
  (jsSplitWs content).length

/-- The provenance header `\n--- From "name" (NN% relevant) ---\n`
(`src/lib/rag-pipeline.ts` lines 40-42 and 54-56). -/
def resultHeader (r : SearchResult ℚ) : String :=
  "\n--- From \"" ++ r.document.metadata.name ++ "\" (" ++
    jsRoundStr (jmul r.similarity (JNum.fin 100)) ++ "% relevant) ---\n"

/-- The partial fragment `content.split(/\s+/).slice(0, remainingTokens).join(' ') + '...'`
(`src/lib/rag-pipeline.ts` lines 50-57). -/
def fragmentOf (r : SearchResult ℚ) (remainingTokens : ℕ) : String :=
  String.intercalate " " ((jsSplitWs r.document.content).take remainingTokens) ++ "..."

/-- The `for`-loop of `buildContext` (`src/lib/rag-pipeline.ts` lines 34-62),
returning the accumulated context string together with the final value of
the running token counter `tokenCount`.  The counter is only advanced for
documents appended whole; headers and partial fragments are NOT counted.
(`maxTokens - tokenCount` is ℕ-truncated subtraction; since the branch is
only reached with `tokenCount ≤ maxTokens` it agrees with the JS value on
every reachable state, and on unreachable states both sides fail the
`> 50` test anyway.) -/
def buildLoop (maxTokens : ℕ) : List (SearchResult ℚ) → String → ℕ → String × ℕ
  | [], context, tokenCount => (context, tokenCount)
  | r :: rest, context, tokenCount =>
    let dt := docTokens r.document.content
    if tokenCount + dt ≤ maxTokens then
      buildLoop maxTokens rest (context ++ resultHeader r ++ r.document.content ++ "\n")
        (tokenCount + dt)
    else
      let remainingTokens := maxTokens - tokenCount
      if 50 < remainingTokens then
        (context ++ resultHeader r ++ fragmentOf r remainingTokens ++ "\n", tokenCount)
      else (context, tokenCount)

/-- `buildContext` (`src/lib/rag-pipeline.ts` lines 19-65): early return on
no results, re-sort by descending similarity, greedy loop, final `trim()`. -/
def buildContext (searchResults : List (SearchResult ℚ)) (query : String)
    (maxTokens : ℕ) : String :=
  if searchResults.length = 0 then ""
  else jsTrim (buildLoop maxTokens (sortJS searchResults) "" 0).1

/-- The templated insufficient-information answer
(`src/lib/rag-pipeline.ts` line 73). -/
def noInfoAnswer (query : String) : String :=
  "I don't have enough information in the current document collection to answer \"" ++
    query ++ "\". Please add more relevant documents or try rephrasing your question."

/-- The static message used when the chat provider returns no usable answer
(`src/lib/rag-pipeline.ts` line 89). -/
def unableAnswer : String :=
  "I was unable to generate a response. Please try again."

/-- The extractive fallback of `generateAnswer`
(`src/lib/rag-pipeline.ts` lines 91-125): mean similarity as a rounded
percentage, sentence split on `[.!?]+`, sentences of trimmed length > 20,
lexical-overlap filter against the query tokens, up to 5 sentences (or the
first 3 when none overlap), plus head and trailer templates. -/
def fallbackAnswer (query context : String) (sources : List (SearchResult ℚ)) : String :=
  let avgSimilarity :=
    jdiv (sources.foldl (fun sum source => jadd sum source.similarity) (JNum.fin 0))
      (JNum.fin ((sources.length : ℕ) : ℚ))
  let confidence := jsRoundStr (jmul avgSimilarity (JNum.fin 100))
  let sourceNames := String.intercalate ", " (sources.map fun s => s.document.metadata.name)
  let head := "Based on the information from " ++ toString sources.length ++
    " document(s) (" ++ sourceNames ++ "), here's what I found regarding \"" ++
    query ++ "\":\n\n"
  let sentences := (splitRuns (fun c => c == '.' || c == '!' || c == '?') context).filter
    fun s => 20 < (jsTrim s).length
  let queryWords := jsSplitWs (jsToLower query)
  let relevantSentences := (sentences.filter fun sentence =>
    let sentenceWords := jsSplitWs (jsToLower sentence)
    queryWords.any fun word =>
      sentenceWords.any fun sw => jsIncludes sw word || jsIncludes word sw).take 5
  let body :=
    if relevantSentences.length > 0 then String.intercalate ". " relevantSentences ++ "."
    else String.intercalate ". " (sentences.take 3) ++ "."
  head ++ body ++ "\n\nThis response is based on " ++ toString sources.length ++
    " source document(s) with an average relevance score of " ++ confidence ++ "%."

/-- `generateAnswer` (`src/lib/rag-pipeline.ts` lines 67-127).  The chat
provider call is an external effect, passed in as `chatOutcome`:
`Except.error` is a failed fetch / non-ok response (caught by the inner
`try`, which falls back to `fallbackAnswer`); `Except.ok ans` is a
successful response whose `data.answer` field is `ans` (`none` when absent,
and an empty string is falsy, so both yield the static message). -/
def generateAnswer (chatOutcome : Except String (Option String))
    (query context : String) (sources : List (SearchResult ℚ)) : String :=
  if context == "" || sources.length == 0 then noInfoAnswer query
  else
    match chatOutcome with
    | Except.ok (some answer) => if answer == "" then unableAnswer else answer
    | Except.ok none => unableAnswer
    | Except.error _ => fallbackAnswer query context sources

/-- The generic error answer of the orchestrator's `catch` branch
(`src/lib/rag-pipeline.ts` line 176). -/
def errorAnswer : String :=
  "I encountered an error while processing your query. Please try again or rephrase your question."

/-- `processRAGQuery` (`src/lib/rag-pipeline.ts` lines 129-187).  Effects are
passed in explicitly: `searchOutcome` is the result of the awaited
`vectorStore.search(query, topK)` stage (`Except.error` = that stage threw),
`chatOutcome` feeds `generateAnswer` as above, and `startTime` / `endTime`
are the values of the two `Date.now()` calls (the second is made either at
line 163 on success or at line 184 in the `catch` branch, so in both cases
`processingTime = endTime - startTime` is the elapsed time up to that
point).  `topK` only parameterises the already-performed search stage.
The function is total: no exception escapes, matching the `try`/`catch`
that wraps the whole body. -/
def processRAGQuery (searchOutcome : Except String (List (SearchResult ℚ)))
    (chatOutcome : Except String (Option String)) (query : String) (_topK : ℕ)
    (startTime endTime : ℤ) : RAGResponse :=
  match searchOutcome with
  | Except.error _ =>
    { answer := errorAnswer
      context := { query := query, retrievedDocuments := [], contextWindow := "",
                   confidence := JNum.fin 0 }
      sources := []
      processingTime := endTime - startTime }
  | Except.ok searchResults =>
    let contextWindow := buildContext searchResults query 2000
    let confidence :=
      if searchResults.length > 0 then
        jsRoundNum (jmul
          (jdiv (searchResults.foldl (fun sum r => jadd sum r.similarity) (JNum.fin 0))
            (JNum.fin ((searchResults.length : ℕ) : ℚ)))
          (JNum.fin 100))
      else JNum.fin 0
    let answer := generateAnswer chatOutcome query contextWindow searchResults
    { answer := answer
      context := { query := query, retrievedDocuments := searchResults,
                   contextWindow := contextWindow, confidence := confidence }
      sources := searchResults
      processingTime := endTime - startTime }

/-- The stopword set of `preprocessQuery` (`src/lib/rag-pipeline.ts`
lines 192-227), all 34 entries. -/
def stopWords : List String :=
  ["the", "a", "an", "and", "or", "but", "in", "on", "at", "to",
   "for", "of", "with", "by", "from", "up", "about", "into", "through", "during",
   "before", "after", "above", "below", "between", "among", "within", "without", "under", "over",
   "across", "behind", "beyond", "beside"]

/-- `preprocessQuery` (`src/lib/rag-pipeline.ts` lines 190-236): lowercase,
replace `[^\w\s]` by a space, split on whitespace, keep tokens of length
> 2 that are not stopwords, re-join with single spaces, trim. -/
def preprocessQuery (query : String) : String :=
  let replaced := String.mk ((jsToLower query).data.map fun c =>
    if !isWordChar c && !isWsChar c then ' ' else c)
  let kept := (jsSplitWs replaced).filter fun word =>
    decide (2 < word.length) && !stopWords.contains word
  jsTrim (String.intercalate " " kept)

/-- The synonym table of `expandQuery` (`src/lib/rag-pipeline.ts`
lines 244-253), in source order. -/
def synonymPairs : List (String × List String) :=
  [("data", ["information", "content", "facts"]),
   ("analysis", ["examination", "study", "research"]),
   ("system", ["platform", "application", "software"]),
   ("process", ["method", "procedure", "workflow"]),
   ("result", ["outcome", "finding", "conclusion"]),
   ("document", ["file", "text", "content"]),
   ("search", ["find", "locate", "retrieve"]),
   ("information", ["data", "content", "details"])]

/-- The inner loop of `expandQuery`: for one token `word` of the base query,
append `baseQuery.replace(word, synonym)` for each synonym, skipping strings
already present (`src/lib/rag-pipeline.ts` lines 258-263). -/
def expandWith (baseQuery word : String) (syns : List String)
    (acc : List String) : List String :=
  syns.foldl (fun acc2 synonym =>
    let expandedQuery := jsReplaceFirst baseQuery word synonym
    if acc2.contains expandedQuery then acc2 else acc2 ++ [expandedQuery]) acc

/-- The body of `expandQuery`'s `words.forEach` for one token `word`
(`src/lib/rag-pipeline.ts` lines 256-265): a token present in the synonym
table triggers the inner loop, others leave the accumulator unchanged. -/
def expandStep (baseQuery : String) (acc : List String) (word : String) : List String :=
  match synonymPairs.lookup word with
  | some syns => expandWith baseQuery word syns acc
  | none => acc

/-- `expandQuery` (`src/lib/rag-pipeline.ts` lines 239-268): start from the
preprocessed query, then walk its whitespace tokens, expanding the ones
present in the synonym table. -/
def expandQuery (query : String) : List String :=
  let baseQuery := preprocessQuery query
  let words := jsSplitWs baseQuery
  words.foldl (expandStep baseQuery) [baseQuery]

/-! ### Indexed views of the sort, for stating stability -/

/-- `jsSortRel` lifted to index-carrying results (the index records
store-insertion order; the relation ignores it, exactly as the JS
comparator does). -/
def jsSortRel2 {α : Type} [LinearOrderedField α] (x y : ℕ × SearchResult α) : Prop :=
  jsSortRel x.2 y.2

instance {α : Type} [LinearOrderedField α] : DecidableRel (jsSortRel2 (α := α)) :=
  fun _ _ => inferInstanceAs (Decidable (_ = true))

/-- Modelled from the spec: "sorts descending by similarity; ties in
similarity break by store-insertion order (stable sort)" — the
lexicographic order "strictly larger similarity first, equal similarities
by ascending store index". -/
def lexRel {α : Type} [LinearOrderedField α] (x y : ℕ × SearchResult α) : Prop :=
  jltB y.2.similarity x.2.similarity = true ∨
    (x.2.similarity = y.2.similarity ∧ x.1 ≤ y.1)

instance {α : Type} [LinearOrderedField α] : DecidableRel (lexRel (α := α)) :=
  fun _ _ => inferInstanceAs (Decidable (_ ∨ _))

/-- Sorting by the spec's descending-similarity-then-insertion-order. -/
def sortLex {α : Type} [LinearOrderedField α] (l : List (ℕ × SearchResult α)) :
    List (ℕ × SearchResult α) :=
  l.insertionSort lexRel

/-! ### Concrete instances used by counterexamples and witnesses -/

/-- Concrete metadata for the concrete stores below. -/
def meta0 : DocMeta := ⟨"doc", DocKind.text, none, 0⟩

/-- A one-token document, used against a budget of 1 token. -/
def rHello : SearchResult ℚ := ⟨⟨"d1", "hello", [], meta0⟩, JNum.fin (1 / 2)⟩

/-- A 51-token content string. -/
def words51 : String := String.intercalate " " (List.replicate 51 "w")

/-- A 51-token document, used against a budget of exactly 50 tokens. -/
def r51 : SearchResult ℚ := ⟨⟨"d2", words51, [], meta0⟩, JNum.fin (1 / 2)⟩

/-- A three-token document, used mid-loop with 2 tokens of budget left. -/
def rSmall : SearchResult ℚ := ⟨⟨"d3", "a b c", [], meta0⟩, JNum.fin 0⟩

/-- A concrete query vector. -/
noncomputable def qv0 : List (JNum ℝ) := [JNum.fin 1, JNum.fin 0]

/-- Document with cosine similarity 3/5 against `qv0`. -/
noncomputable def docA : VectorDocument ℝ := ⟨"a", "A", [JNum.fin 3, JNum.fin 4], meta0⟩

/-- Document with an all-zero embedding: cosine similarity against `qv0`
is `0/0`, i.e. `NaN`. -/
noncomputable def docB : VectorDocument ℝ := ⟨"b", "B", [JNum.fin 0, JNum.fin 0], meta0⟩

/-- Document with cosine similarity 1 against `qv0`. -/
noncomputable def docC : VectorDocument ℝ := ⟨"c", "C", [JNum.fin 2, JNum.fin 0], meta0⟩

/-! ## Theorems -/

/-- Claim C2 (code bug): the spec demands that the all-zero case of cosine
similarity be guarded and produce `0`; `cosineSimilarity` has no such guard
and on two all-zero vectors computes `0 / (√0 · √0) = 0/0 = NaN`. -/
theorem cosineSimilarity_allzero_nan :
    cosineSimilarity [JNum.fin 0, JNum.fin 0] [JNum.fin 0, JNum.fin 0] = JNum.nan := by
  show jdiv (JNum.fin ((0 : ℝ) + 0 * 0 + 0 * 0))
      (jmul (jsqrt (JNum.fin ((0 : ℝ) + 0 * 0 + 0 * 0)))
        (jsqrt (JNum.fin ((0 : ℝ) + 0 * 0 + 0 * 0)))) = JNum.nan
  rw [show ((0 : ℝ) + 0 * 0 + 0 * 0) = 0 by norm_num]
  rw [show jsqrt (JNum.fin (0 : ℝ)) = JNum.fin 0 by
    rw [jsqrt, if_neg (lt_irrefl 0), Real.sqrt_zero]]
  rw [show jmul (JNum.fin (0 : ℝ)) (JNum.fin 0) = JNum.fin 0 by
    rw [jmul]; norm_num]
  rw [jdiv, if_pos rfl, if_pos rfl]

/-- Claim C4 (confirmed): when a pipeline stage throws (modelled by the
search stage's `Except.error`; it is the stage whose awaited provider call
the `try` of `processRAGQuery` can see fail), the orchestrator returns the
generic error answer, an empty context with confidence 0, no sources, and
the elapsed time up to the failure.  `processRAGQuery` is a total function,
so no exception ever escapes it. -/
theorem processRAGQuery_error_boundary (e : String)
    (chatOutcome : Except String (Option String)) (query : String) (topK : ℕ)
    (startTime endTime : ℤ) :
    processRAGQuery (Except.error e) chatOutcome query topK startTime endTime =
      ⟨errorAnswer, ⟨query, [], "", JNum.fin 0⟩, [], endTime - startTime⟩ := rfl

/-- Claim C6 (confirmed): on an empty store `search` returns `[]` and makes
zero calls to `generateEmbedding` (the early return at line 209 precedes
the embedding call at line 211). -/
theorem search_empty_store_no_embedding (embed : String → List (JNum ℝ))
    (query : String) (topK : ℕ) :
    searchWithEmbedCalls embed query [] topK = ([], 0) := rfl

/-- Claim C7 (confirmed): with zero documents the search stage yields `[]`
(see `search_empty_store_no_embedding`), and on `[]` the orchestrator
returns confidence 0, an empty sources list, and the templated
insufficient-information answer, which contains the original query text. -/
theorem processRAGQuery_empty_store (chatOutcome : Except String (Option String))
    (query : String) (topK : ℕ) (startTime endTime : ℤ) :
    (processRAGQuery (Except.ok []) chatOutcome query topK startTime endTime).context.confidence
        = JNum.fin 0 ∧
    (processRAGQuery (Except.ok []) chatOutcome query topK startTime endTime).sources = [] ∧
    ∃ pre post,
      (processRAGQuery (Except.ok []) chatOutcome query topK startTime endTime).answer =
        pre ++ query ++ post := by
  refine ⟨rfl, rfl,
    "I don't have enough information in the current document collection to answer \"",
    "\". Please add more relevant documents or try rephrasing your question.", ?_⟩
  rfl

/-- Helper: the rendered percentage for similarity `1/2` is `"50"`. -/
theorem jsRoundStr_half : jsRoundStr (jmul (JNum.fin (1 / 2) : JNum ℚ) (JNum.fin 100)) = "50" := by
  have h1 : jmul (JNum.fin (1 / 2) : JNum ℚ) (JNum.fin 100) = JNum.fin 50 := by
    show JNum.fin ((1 : ℚ) / 2 * 100) = JNum.fin 50
    norm_num
  rw [h1]
  show toString (⌊(50 : ℚ) + 1 / 2⌋ : ℤ) = "50"
  have h2 : (⌊(50 : ℚ) + 1 / 2⌋ : ℤ) = 50 := by norm_num
  rw [h2]
  rfl

/-- Helper: the provenance header of the `rHello` result, as a literal. -/
theorem resultHeader_rHello :
    resultHeader rHello = "\n--- From \"doc\" (50% relevant) ---\n" := by
  show "\n--- From \"" ++ "doc" ++ "\" (" ++
      jsRoundStr (jmul (JNum.fin (1 / 2) : JNum ℚ) (JNum.fin 100)) ++ "% relevant) ---\n" = _
  rw [jsRoundStr_half]
  rfl

/-- Helper: the loop appends `rHello`'s header and content whole. -/
theorem buildLoop_rHello :
    buildLoop 1 [rHello] "" 0 = ("" ++ resultHeader rHello ++ "hello" ++ "\n", 1) := by
  show (if 0 + docTokens "hello" ≤ 1 then
      buildLoop 1 [] ("" ++ resultHeader rHello ++ "hello" ++ "\n") (0 + docTokens "hello")
    else if 50 < 1 - 0 then ("" ++ resultHeader rHello ++ fragmentOf rHello (1 - 0) ++ "\n", 0)
    else ("", 0)) = ("" ++ resultHeader rHello ++ "hello" ++ "\n", 1)
  rw [show docTokens "hello" = 1 from by decide]
  rfl

/-- Claim C5 (counterexample): with a budget of 1 token and a single
one-token document, `buildContext` emits the document plus its provenance
header; the returned string has 7 whitespace tokens, exceeding `maxTokens`.
The running counter only ever counts document-content tokens, never the
header tokens. -/
theorem buildContext_budget_cex : ¬ (wsTokenCount (buildContext [rHello] "q" 1) ≤ 1) := by
  have hb : buildContext [rHello] "q" 1 =
      jsTrim ("" ++ resultHeader rHello ++ "hello" ++ "\n") := by
    show jsTrim (buildLoop 1 (sortJS [rHello]) "" 0).1 = _
    rw [show sortJS [rHello] = [rHello] from rfl, buildLoop_rHello]
  rw [hb, resultHeader_rHello]
  decide

/-- Helper: the running token counter of `buildContext`'s loop never
exceeds the budget it started under. -/
theorem buildLoop_counter_le (maxTokens : ℕ) (l : List (SearchResult ℚ)) :
    ∀ (context : String) (tokenCount : ℕ), tokenCount ≤ maxTokens →
      (buildLoop maxTokens l context tokenCount).2 ≤ maxTokens := by
  induction l with
  | nil => intro ctx tc h; simpa [buildLoop] using h
  | cons r rest ih =>
    intro ctx tc h
    by_cases hc : tc + docTokens r.document.content ≤ maxTokens
    · rw [buildLoop, if_pos hc]
      exact ih _ _ hc
    · rw [buildLoop, if_neg hc]
      by_cases h50 : 50 < maxTokens - tc
      · rw [if_pos h50]; exact h
      · rw [if_neg h50]; exact h

/-- Claim C5 (amended): what `buildContext` bounds by `maxTokens` is its
RUNNING token counter — the sum of the whitespace-token counts of the
document contents appended whole.  Provenance headers and the partial
fragment are not counted, so the returned string itself can exceed the
budget (see `buildContext_budget_cex`). -/
theorem buildContext_counter_bounded (searchResults : List (SearchResult ℚ))
    (maxTokens : ℕ) :
    (buildLoop maxTokens (sortJS searchResults) "" 0).2 ≤ maxTokens :=
  buildLoop_counter_le maxTokens (sortJS searchResults) "" 0 (Nat.zero_le _)

/-- Claim C8 (counterexample): a 51-token document against a 50-token
budget: all 50 remaining tokens of budget are available ("at least 50"),
yet the code's strict `remainingTokens > 50` test fails and NO partial
fragment is emitted — `buildContext` returns the empty string. -/
theorem buildContext_fragment_threshold_cex :
    docTokens words51 = 51 ∧ buildContext [r51] "q" 50 = "" := by
  constructor
  · decide
  · decide

/-- Claim C8 (amended): when the next document would overflow the remaining
budget, a partial fragment (of exactly the leading tokens that fit) is
appended iff STRICTLY MORE than 50 tokens of budget remain (i.e. at least
51, not the spec's "at least 50"), and in either case the loop halts at
that document: no later document is examined. -/
theorem buildLoop_overflow_fragment (maxTokens : ℕ) (r : SearchResult ℚ)
    (rest : List (SearchResult ℚ)) (context : String) (tokenCount : ℕ)
    (h : maxTokens < tokenCount + docTokens r.document.content) :
    buildLoop maxTokens (r :: rest) context tokenCount =
      if 50 < maxTokens - tokenCount then
        (context ++ resultHeader r ++ fragmentOf r (maxTokens - tokenCount) ++ "\n", tokenCount)
      else (context, tokenCount) := by
  rw [buildLoop, if_neg (by omega)]

/-- Witness for `buildLoop_overflow_fragment` at a concrete state: 8 tokens
consumed of a 10-token budget, next document 3 tokens long. -/
theorem buildLoop_overflow_fragment_witness :
    (10 < 8 + docTokens rSmall.document.content) ∧
      buildLoop 10 [rSmall] "x" 8 = ("x", 8) := by
  refine ⟨by decide, ?_⟩
  rw [buildLoop_overflow_fragment 10 rSmall [] "x" 8 (by decide)]
  decide

/-- Helper: membership in the store's id-exclusion filter implies a
different id. -/
theorem mem_filter_ne_id {docs : List (VectorDocument ℝ)} {i : String}
    {d : VectorDocument ℝ} (h : d ∈ docs.filter fun x => x.id != i) : d.id ≠ i := by
  have := List.of_mem_filter h
  simpa [bne_iff_ne] using this

/-- Helper: each store mutation preserves distinctness of the stored ids. -/
theorem applyOp_nodup (op : StoreOp) (docs : List (VectorDocument ℝ))
    (h : (docs.map VectorDocument.id).Nodup) :
    ((applyOp docs op).map VectorDocument.id).Nodup := by
  cases op with
  | add i c e m =>
    rw [applyOp, addDocument, List.map_append]
    rw [List.nodup_append]
    refine ⟨h.sublist ((List.filter_sublist docs).map VectorDocument.id), by simp, ?_⟩
    intro a ha
    simp only [List.mem_map] at ha
    obtain ⟨d, hd, rfl⟩ := ha
    simp only [List.map_cons, List.map_nil, List.mem_singleton]
    exact mem_filter_ne_id hd
  | remove i =>
    exact h.sublist ((List.filter_sublist docs).map VectorDocument.id)

/-- Helper: running mutations from any id-distinct store keeps ids distinct. -/
theorem runOps_aux (ops : List StoreOp) :
    ∀ docs : List (VectorDocument ℝ), (docs.map VectorDocument.id).Nodup →
      ((ops.foldl applyOp docs).map VectorDocument.id).Nodup := by
  induction ops with
  | nil => intro docs h; simpa using h
  | cons op rest ih =>
    intro docs h
    exact ih (applyOp docs op) (applyOp_nodup op docs h)

/-- Claim C3 (confirmed): after any sequence of `addDocument`/`removeDocument`
operations from the empty store the stored ids are pairwise distinct, and
adding twice under one id leaves exactly one document with that id, carrying
the second content. -/
theorem store_unique_id_replace :
    (∀ ops : List StoreOp, ((runOps ops).map VectorDocument.id).Nodup) ∧
    (∀ (docs : List (VectorDocument ℝ)) (id c1 c2 : String) (e1 e2 : List (JNum ℝ))
        (m1 m2 : DocMeta),
      ((addDocument (addDocument docs id c1 e1 m1) id c2 e2 m2).filter
          (fun d => d.id == id)).length = 1 ∧
      ∀ d ∈ addDocument (addDocument docs id c1 e1 m1) id c2 e2 m2,
        d.id = id → d.content = c2) := by
  constructor
  · intro ops
    exact runOps_aux ops [] (by simp)
  · intro docs id c1 c2 e1 e2 m1 m2
    constructor
    · rw [addDocument, addDocument, List.filter_append, List.filter_append]
      rw [List.filter_filter]
      simp
    · intro d hd hid
      rw [addDocument] at hd
      rcases List.mem_append.mp hd with h | h
      · exact absurd hid (mem_filter_ne_id h)
      · rw [List.mem_singleton] at h
        rw [h]

/-- Witness for `store_unique_id_replace` at a concrete double insert. -/
theorem store_unique_id_replace_witness :
    ((addDocument (addDocument [] "a" "c1" [] meta0) "a" "c2" [] meta0).filter
        (fun d => d.id == "a")).length = 1 ∧
    (⟨"a", "c2", [], meta0⟩ : VectorDocument ℝ).content = "c2" :=
  ⟨(store_unique_id_replace.2 [] "a" "c1" "c2" [] [] meta0 meta0).1,
   (store_unique_id_replace.2 [] "a" "c1" "c2" [] [] meta0 meta0).2
     ⟨"a", "c2", [], meta0⟩
     (List.mem_append_right _ (List.mem_singleton.mpr rfl)) rfl⟩

/-- Helper: `expandWith` unfolded one synonym at a time. -/
theorem expandWith_cons (base w s : String) (ss : List String) (acc : List String) :
    expandWith base w (s :: ss) acc =
      expandWith base w ss
        (if acc.contains (jsReplaceFirst base w s) then acc
         else acc ++ [jsReplaceFirst base w s]) := rfl

/-- Helper: the inner synonym loop only appends to its accumulator. -/
theorem expandWith_extends (base w : String) (syns : List String) :
    ∀ acc, ∃ t, expandWith base w syns acc = acc ++ t := by
  induction syns with
  | nil => intro acc; exact ⟨[], by simp [expandWith]⟩
  | cons s ss ih =>
    intro acc
    rw [expandWith_cons]
    by_cases hc : acc.contains (jsReplaceFirst base w s)
    · rw [if_pos hc]; exact ih acc
    · rw [if_neg hc]
      obtain ⟨t, ht⟩ := ih (acc ++ [jsReplaceFirst base w s])
      exact ⟨[jsReplaceFirst base w s] ++ t, by rw [ht, List.append_assoc]⟩

/-- Helper: the inner synonym loop preserves distinctness (it appends only
variants not already present). -/
theorem expandWith_nodup (base w : String) (syns : List String) :
    ∀ acc, acc.Nodup → (expandWith base w syns acc).Nodup := by
  induction syns with
  | nil => intro acc h; simpa [expandWith] using h
  | cons s ss ih =>
    intro acc h
    rw [expandWith_cons]
    by_cases hc : acc.contains (jsReplaceFirst base w s)
    · rw [if_pos hc]; exact ih acc h
    · rw [if_neg hc]
      refine ih _ (List.nodup_append.mpr ⟨h, by simp, ?_⟩)
      intro a ha hmem
      simp only [List.mem_singleton] at hmem
      subst hmem
      simp at hc
      exact hc ha

/-- Helper: after the inner loop runs for `w`, every synonym's variant is
present. -/
theorem expandWith_mem (base w : String) (syns : List String) (s : String)
    (hs : s ∈ syns) : ∀ acc, jsReplaceFirst base w s ∈ expandWith base w syns acc := by
  induction syns with
  | nil => cases hs
  | cons s' ss ih =>
    intro acc
    rw [expandWith_cons]
    rcases List.mem_cons.mp hs with rfl | hs'
    · have hmem : jsReplaceFirst base w s ∈
          (if acc.contains (jsReplaceFirst base w s) then acc
           else acc ++ [jsReplaceFirst base w s]) := by
        by_cases hc : acc.contains (jsReplaceFirst base w s)
        · rw [if_pos hc]; simpa using hc
        · rw [if_neg hc]; exact List.mem_append_right _ (List.mem_singleton.mpr rfl)
      obtain ⟨t, ht⟩ := expandWith_extends base w ss _
      rw [ht]
      exact List.mem_append_left _ hmem
    · exact ih hs' _

/-- Helper: one `forEach` step only appends. -/
theorem expandStep_extends (base : String) (acc : List String) (w : String) :
    ∃ t, expandStep base acc w = acc ++ t := by
  rw [expandStep]
  cases synonymPairs.lookup w with
  | some syns => exact expandWith_extends base w syns acc
  | none => exact ⟨[], by simp⟩

/-- Helper: the whole `forEach` only appends. -/
theorem foldl_expandStep_extends (base : String) (ws : List String) :
    ∀ acc, ∃ t, ws.foldl (expandStep base) acc = acc ++ t := by
  induction ws with
  | nil => intro acc; exact ⟨[], by simp⟩
  | cons w ws' ih =>
    intro acc
    rw [List.foldl_cons]
    obtain ⟨t1, ht1⟩ := expandStep_extends base acc w
    obtain ⟨t2, ht2⟩ := ih (expandStep base acc w)
    exact ⟨t1 ++ t2, by rw [ht2, ht1, List.append_assoc]⟩

/-- Helper: one `forEach` step preserves distinctness. -/
theorem expandStep_nodup (base : String) (acc : List String) (w : String)
    (h : acc.Nodup) : (expandStep base acc w).Nodup := by
  rw [expandStep]
  cases synonymPairs.lookup w with
  | some syns => exact expandWith_nodup base w syns acc h
  | none => exact h

/-- Helper: the whole `forEach` preserves distinctness. -/
theorem foldl_expandStep_nodup (base : String) (ws : List String) :
    ∀ acc, acc.Nodup → (ws.foldl (expandStep base) acc).Nodup := by
  induction ws with
  | nil => intro acc h; simpa using h
  | cons w ws' ih =>
    intro acc h
    rw [List.foldl_cons]
    exact ih _ (expandStep_nodup base acc w h)

/-- Helper: every synonym variant of every walked token ends up in the
accumulator. -/
theorem foldl_expandStep_mem (base : String) (ws : List String) (w s : String)
    (syns : List String) (hw : w ∈ ws) (hlook : synonymPairs.lookup w = some syns)
    (hs : s ∈ syns) :
    ∀ acc, jsReplaceFirst base w s ∈ ws.foldl (expandStep base) acc := by
  induction ws with
  | nil => cases hw
  | cons w' ws' ih =>
    intro acc
    rw [List.foldl_cons]
    rcases List.mem_cons.mp hw with rfl | hw'
    · have hmem : jsReplaceFirst base w s ∈ expandStep base acc w := by
        rw [expandStep, hlook]
        exact expandWith_mem base w syns s hs acc
      obtain ⟨t, ht⟩ := foldl_expandStep_extends base ws' (expandStep base acc w)
      rw [ht]
      exact List.mem_append_left _ hmem
    · exact ih hw' _

/-- Claim C9 (counterexample): in the preprocessed query `"database data"`
the token `"data"` is present in the synonym table, yet the variant with
that TOKEN substituted (`"database information"`) is NOT produced; instead
`replace` rewrites the first SUBSTRING occurrence of `"data"` — the one
inside `"database"` — yielding `"informationbase data"`. -/
theorem expandQuery_token_substitution_cex :
    "data" ∈ jsSplitWs (preprocessQuery "database data") ∧
    "database information" ∉ expandQuery "database data" ∧
    "informationbase data" ∈ expandQuery "database data" :=
  ⟨by decide, by decide, by decide⟩

/-- Claim C9 (amended): `expandQuery` starts with the preprocessed query,
appends — per token in the synonym table and per synonym — the variant
obtained by replacing the FIRST SUBSTRING OCCURRENCE of the token (which is
the token itself only when no earlier substring matches), dedups exactly,
and in particular `expandQuery "data analysis"` contains `"data analysis"`
exactly once, contains `"information analysis"`, and has no duplicates. -/
theorem expandQuery_structure :
    (∀ q : String, (expandQuery q).head? = some (preprocessQuery q) ∧ (expandQuery q).Nodup ∧
      ∀ w syns s, w ∈ jsSplitWs (preprocessQuery q) →
        synonymPairs.lookup w = some syns → s ∈ syns →
          jsReplaceFirst (preprocessQuery q) w s ∈ expandQuery q) ∧
    List.count "data analysis" (expandQuery "data analysis") = 1 ∧
    "information analysis" ∈ expandQuery "data analysis" := by
  refine ⟨fun q => ⟨?_, ?_, ?_⟩, by decide, by decide⟩
  · show ((jsSplitWs (preprocessQuery q)).foldl (expandStep (preprocessQuery q))
      [preprocessQuery q]).head? = _
    obtain ⟨t, ht⟩ := foldl_expandStep_extends (preprocessQuery q)
      (jsSplitWs (preprocessQuery q)) [preprocessQuery q]
    rw [ht]
    rfl
  · exact foldl_expandStep_nodup _ _ _ (by simp)
  · intro w syns s hw hlook hs
    exact foldl_expandStep_mem _ _ w s syns hw hlook hs _

/-- Witness for `expandQuery_structure` at the `"data analysis"` instance. -/
theorem expandQuery_structure_witness :
    ("data" ∈ jsSplitWs (preprocessQuery "data analysis") ∧
      synonymPairs.lookup "data" = some ["information", "content", "facts"]) ∧
    jsReplaceFirst (preprocessQuery "data analysis") "data" "information" ∈
      expandQuery "data analysis" := by
  refine ⟨⟨by decide, by decide⟩, ?_⟩
  exact (expandQuery_structure.1 "data analysis").2.2 "data"
    ["information", "content", "facts"] "information" (by decide) (by decide) (by decide)

/-- Helper: the JS division `0/0` is `NaN`. -/
theorem jdiv_zero_zero {α : Type} [LinearOrderedField α] :
    jdiv (JNum.fin (0 : α)) (JNum.fin 0) = JNum.nan := by
  rw [jdiv, if_pos rfl, if_pos rfl]

/-- Claim C10 (confirmed): `textToVector` always emits exactly 100 entries;
with at least one word token every entry is a finite ratio in `[0, 1]`
(term frequency over total token count), and with no word tokens the
unguarded division makes every entry `0/0 = NaN` (all 100 surviving
dimensions come from the 104-word vocabulary, so the zero padding never
fires). -/
theorem textToVector_shape (text : String) :
    (textToVector text).length = 100 ∧
    (wordTokens (jsToLower text) = [] → ∀ x ∈ textToVector text, x = JNum.nan) ∧
    (wordTokens (jsToLower text) ≠ [] → ∀ x ∈ textToVector text, ∃ q : ℚ,
      x = JNum.fin q ∧ 0 ≤ q ∧ q ≤ 1) := by
  have hcw : commonWords.length = 104 := by decide
  have hmem : ∀ x ∈ textToVector text, ∃ w,
      x = jdiv (JNum.fin ((List.count w (wordTokens (jsToLower text)) : ℕ) : ℚ))
        (JNum.fin (((wordTokens (jsToLower text)).length : ℕ) : ℚ)) := by
    intro x hx
    have hx2 := List.mem_of_mem_take hx
    rcases List.mem_append.mp hx2 with hx3 | hx3
    · obtain ⟨w, _, rfl⟩ := List.mem_map.mp hx3
      exact ⟨w, rfl⟩
    · rw [List.length_map, hcw] at hx3
      simp at hx3
  refine ⟨?_, ?_, ?_⟩
  · simp only [textToVector]
    rw [List.length_take, List.length_append, List.length_map, List.length_replicate, hcw]
    decide
  · intro hempty x hx
    obtain ⟨w, rfl⟩ := hmem x hx
    rw [hempty]
    simp only [List.count_nil, List.length_nil, Nat.cast_zero]
    exact jdiv_zero_zero
  · intro hne x hx
    obtain ⟨w, rfl⟩ := hmem x hx
    have hlen : 0 < (wordTokens (jsToLower text)).length := List.length_pos.mpr hne
    have hlenq : (0 : ℚ) < ((wordTokens (jsToLower text)).length : ℚ) := by exact_mod_cast hlen
    rw [jdiv, if_neg (ne_of_gt hlenq)]
    refine ⟨_, rfl, by positivity, ?_⟩
    rw [div_le_one hlenq]
    exact_mod_cast List.count_le_length w (wordTokens (jsToLower text))

/-- Witness for `textToVector_shape` on a token-free text and on a text with
one token. -/
theorem textToVector_shape_witness :
    (wordTokens (jsToLower "!!!") = [] ∧ ∀ x ∈ textToVector "!!!", x = JNum.nan) ∧
    (wordTokens (jsToLower "cat") ≠ [] ∧ ∀ x ∈ textToVector "cat", ∃ q : ℚ,
      x = JNum.fin q ∧ 0 ≤ q ∧ q ≤ 1) :=
  ⟨⟨by decide, (textToVector_shape "!!!").2.1 (by decide)⟩,
   ⟨by decide, (textToVector_shape "cat").2.2 (by decide)⟩⟩

/-! ### Order lemmas for the comparator model (claim C1) -/

section SortProofs

variable {α : Type} [LinearOrderedField α]

/-- Helper: on non-NaN similarities the JS comparator's "keep order" test is
exactly the descending `≤` on similarity values. -/
theorem jsSortRel_iff (x y : SearchResult α) (hx : x.similarity ≠ JNum.nan)
    (hy : y.similarity ≠ JNum.nan) :
    jsSortRel x y ↔ jleB y.similarity x.similarity = true := by
  unfold jsSortRel
  cases hx' : x.similarity with
  | nan => exact absurd hx' hx
  | fin vx =>
    cases hy' : y.similarity with
    | nan => exact absurd hy' hy
    | fin vy => simp [jsub, cmpNonPosB, jleB, sub_nonpos]
    | inf b => cases b <;> simp [jsub, cmpNonPosB, jleB]
  | inf bx =>
    cases hy' : y.similarity with
    | nan => exact absurd hy' hy
    | fin vy => cases bx <;> simp [jsub, cmpNonPosB, jleB]
    | inf b => cases b <;> cases bx <;> simp [jsub, cmpNonPosB, jleB]

/-- Helper: on non-NaN values `jleB` splits into strict-or-equal. -/
theorem jleB_iff_lt_or_eq (x y : JNum α) (hx : x ≠ JNum.nan) (hy : y ≠ JNum.nan) :
    jleB x y = true ↔ jltB x y = true ∨ x = y := by
  cases x with
  | nan => exact absurd rfl hx
  | fin vx =>
    cases y with
    | nan => exact absurd rfl hy
    | fin vy => simp [jleB, jltB, le_iff_lt_or_eq]
    | inf b => cases b <;> simp [jleB, jltB]
  | inf bx =>
    cases y with
    | nan => exact absurd rfl hy
    | fin vy => cases bx <;> simp [jleB, jltB]
    | inf b => cases b <;> cases bx <;> simp [jleB, jltB]

/-- Helper: `jleB` is reflexive away from NaN. -/
theorem jleB_refl (x : JNum α) (hx : x ≠ JNum.nan) : jleB x x = true := by
  cases x with
  | nan => exact absurd rfl hx
  | fin v => simp [jleB]
  | inf b => cases b <;> simp [jleB]

/-- Helper: strict implies weak. -/
theorem jltB_le (x y : JNum α) (h : jltB x y = true) : jleB x y = true := by
  cases x <;> cases y <;> simp_all [jltB, jleB]
  exact le_of_lt h

/-- Helper: `jltB` is transitive. -/
theorem jltB_trans (x y z : JNum α) (h1 : jltB x y = true) (h2 : jltB y z = true) :
    jltB x z = true := by
  cases x <;> cases y <;> cases z <;> simp_all [jltB]
  exact lt_trans h1 h2

/-- Helper: away from NaN the JS order is trichotomous. -/
theorem jltB_trichotomy (x y : JNum α) (hx : x ≠ JNum.nan) (hy : y ≠ JNum.nan) :
    jltB x y = true ∨ x = y ∨ jltB y x = true := by
  cases x with
  | nan => exact absurd rfl hx
  | fin vx =>
    cases y with
    | nan => exact absurd rfl hy
    | fin vy =>
      rcases lt_trichotomy vx vy with h | h | h
      · exact Or.inl (by simp [jltB, h])
      · exact Or.inr (Or.inl (by rw [h]))
      · exact Or.inr (Or.inr (by simp [jltB, h]))
    | inf b => cases b <;> simp [jltB]
  | inf bx =>
    cases y with
    | nan => exact absurd rfl hy
    | fin vy => cases bx <;> simp [jltB]
    | inf b => cases b <;> cases bx <;> simp [jltB]

/-- Helper: on non-NaN similarities the spec's lexicographic order is total. -/
theorem lexRel_total (a b : ℕ × SearchResult α) (ha : a.2.similarity ≠ JNum.nan)
    (hb : b.2.similarity ≠ JNum.nan) : lexRel a b ∨ lexRel b a := by
  rcases jltB_trichotomy b.2.similarity a.2.similarity hb ha with h | h | h
  · exact Or.inl (Or.inl h)
  · rcases Nat.le_total a.1 b.1 with hi | hi
    · exact Or.inl (Or.inr ⟨h.symm, hi⟩)
    · exact Or.inr (Or.inr ⟨h, hi⟩)
  · exact Or.inr (Or.inl h)

/-- Helper: the spec's lexicographic order is transitive. -/
theorem lexRel_trans (a b c : ℕ × SearchResult α)
    (h1 : lexRel a b) (h2 : lexRel b c) : lexRel a c := by
  rcases h1 with h1 | ⟨he1, hi1⟩
  · rcases h2 with h2 | ⟨he2, hi2⟩
    · exact Or.inl (jltB_trans _ _ _ h2 h1)
    · exact Or.inl (he2 ▸ h1)
  · rcases h2 with h2 | ⟨he2, hi2⟩
    · exact Or.inl (he1 ▸ h2)
    · exact Or.inr ⟨he1.trans he2, hi1.trans hi2⟩

/-- Helper: inserting into a lex-sorted list keeps it lex-sorted (local
totality/transitivity, since `lexRel` is only a total order away from NaN). -/
theorem orderedInsert_lex_sorted (a : ℕ × SearchResult α) :
    ∀ l : List (ℕ × SearchResult α), a.2.similarity ≠ JNum.nan →
      (∀ x ∈ l, x.2.similarity ≠ JNum.nan) → List.Pairwise lexRel l →
      List.Pairwise lexRel (List.orderedInsert lexRel a l) := by
  intro l
  induction l with
  | nil => intro _ _ _; simp [List.orderedInsert]
  | cons b bs ih =>
    intro ha hmem hp
    rw [List.orderedInsert]
    by_cases h : lexRel a b
    · rw [if_pos h]
      refine List.Pairwise.cons ?_ hp
      intro x hx
      rcases List.mem_cons.mp hx with rfl | hx'
      · exact h
      · exact lexRel_trans a b x h (List.rel_of_pairwise_cons hp hx')
    · rw [if_neg h]
      have hba : lexRel b a := by
        rcases lexRel_total a b ha (hmem b (List.mem_cons_self b bs)) with h' | h'
        · exact absurd h' h
        · exact h'
      refine List.Pairwise.cons ?_ (ih ha (fun x hx => hmem x (List.mem_cons_of_mem b hx))
        (List.Pairwise.of_cons hp))
      intro x hx
      have := (List.perm_orderedInsert lexRel a bs).mem_iff.mp hx
      rcases List.mem_cons.mp this with rfl | hx'
      · exact hba
      · exact List.rel_of_pairwise_cons hp hx'

/-- Helper: `sortLex` really sorts (on NaN-free inputs). -/
theorem sortLex_sorted :
    ∀ l : List (ℕ × SearchResult α), (∀ x ∈ l, x.2.similarity ≠ JNum.nan) →
      List.Pairwise lexRel (sortLex l) := by
  intro l
  induction l with
  | nil => intro _; simp [sortLex, List.insertionSort]
  | cons a l' ih =>
    intro hmem
    show List.Pairwise lexRel (List.orderedInsert lexRel a (List.insertionSort lexRel l'))
    refine orderedInsert_lex_sorted a _ (hmem a (List.mem_cons_self a l')) ?_ ?_
    · intro x hx
      exact hmem x (List.mem_cons_of_mem a
        ((List.perm_insertionSort lexRel l').mem_iff.mp hx))
    · exact ih fun x hx => hmem x (List.mem_cons_of_mem a hx)

/-- Helper: indices enumerated from `n` are at least `n`. -/
theorem fst_le_of_mem_enumFrom {β : Type} :
    ∀ {l : List β} {n : ℕ} {p : ℕ × β}, p ∈ List.enumFrom n l → n ≤ p.1 := by
  intro l
  induction l with
  | nil => intro n p h; cases h
  | cons x xs ih =>
    intro n p h
    rcases List.mem_cons.mp h with rfl | h'
    · exact le_refl n
    · exact le_of_lt (Nat.lt_of_succ_le (ih h'))

/-- Helper: the payload of an enumerated entry is in the base list. -/
theorem snd_mem_of_mem_enumFrom {β : Type} :
    ∀ {l : List β} {n : ℕ} {p : ℕ × β}, p ∈ List.enumFrom n l → p.2 ∈ l := by
  intro l
  induction l with
  | nil => intro n p h; cases h
  | cons x xs ih =>
    intro n p h
    rcases List.mem_cons.mp h with rfl | h'
    · exact List.mem_cons_self x xs
    · exact List.mem_cons_of_mem x (ih h')

/-- Helper: on non-NaN similarities, and when the inserted element predates
the list (smaller store index), the JS comparator order and the spec's
lexicographic order agree. -/
theorem jsSortRel2_iff_lexRel (a b : ℕ × SearchResult α)
    (ha : a.2.similarity ≠ JNum.nan) (hb : b.2.similarity ≠ JNum.nan)
    (hab : a.1 ≤ b.1) : jsSortRel2 a b ↔ lexRel a b := by
  unfold jsSortRel2 lexRel
  rw [jsSortRel_iff a.2 b.2 ha hb,
    jleB_iff_lt_or_eq b.2.similarity a.2.similarity hb ha]
  constructor
  · rintro (h | h)
    · exact Or.inl h
    · exact Or.inr ⟨h.symm, hab⟩
  · rintro (h | ⟨h, _⟩)
    · exact Or.inl h
    · exact Or.inr h.symm

/-- Helper: the two insertions agree under the same conditions. -/
theorem orderedInsert_agree (a : ℕ × SearchResult α) :
    ∀ l : List (ℕ × SearchResult α), (∀ p ∈ l, a.1 ≤ p.1) →
      a.2.similarity ≠ JNum.nan → (∀ p ∈ l, p.2.similarity ≠ JNum.nan) →
      List.orderedInsert jsSortRel2 a l = List.orderedInsert lexRel a l := by
  intro l
  induction l with
  | nil => intro _ _ _; rfl
  | cons b bs ih =>
    intro hidx ha hmem
    rw [List.orderedInsert, List.orderedInsert]
    have hiff := jsSortRel2_iff_lexRel a b ha (hmem b (List.mem_cons_self b bs))
      (hidx b (List.mem_cons_self b bs))
    by_cases h : jsSortRel2 a b
    · rw [if_pos h, if_pos (hiff.mp h)]
    · rw [if_neg h, if_neg (fun h' => h (hiff.mpr h'))]
      rw [ih (fun p hp => hidx p (List.mem_cons_of_mem b hp)) ha
        (fun p hp => hmem p (List.mem_cons_of_mem b hp))]

/-- Helper: on an enumerated, NaN-free result list the stable JS sort equals
the lexicographic sort — this is the formal content of "ties break by
store-insertion order". -/
theorem insertionSort_agree (l : List (SearchResult α)) :
    ∀ n : ℕ, (∀ r ∈ l, r.similarity ≠ JNum.nan) →
      List.insertionSort jsSortRel2 (List.enumFrom n l) = sortLex (List.enumFrom n l) := by
  induction l with
  | nil => intro n _; rfl
  | cons x xs ih =>
    intro n hmem
    show List.orderedInsert jsSortRel2 (n, x)
        (List.insertionSort jsSortRel2 (List.enumFrom (n + 1) xs)) =
      List.orderedInsert lexRel (n, x) (List.insertionSort lexRel (List.enumFrom (n + 1) xs))
    rw [ih (n + 1) (fun r hr => hmem r (List.mem_cons_of_mem x hr))]
    apply orderedInsert_agree
    · intro p hp
      have := fst_le_of_mem_enumFrom
        ((List.perm_insertionSort lexRel (List.enumFrom (n + 1) xs)).mem_iff.mp hp)
      omega
    · exact hmem x (List.mem_cons_self x xs)
    · intro p hp
      exact hmem p.2 (List.mem_cons_of_mem x (snd_mem_of_mem_enumFrom
        ((List.perm_insertionSort lexRel (List.enumFrom (n + 1) xs)).mem_iff.mp hp)))

/-- Helper: dropping the indices commutes with insertion. -/
theorem map_snd_orderedInsert (a : ℕ × SearchResult α) :
    ∀ l : List (ℕ × SearchResult α),
      (List.orderedInsert jsSortRel2 a l).map Prod.snd =
        List.orderedInsert jsSortRel a.2 (l.map Prod.snd) := by
  intro l
  induction l with
  | nil => rfl
  | cons b bs ih =>
    rw [List.orderedInsert, List.map_cons, List.orderedInsert]
    by_cases h : jsSortRel2 a b
    · rw [if_pos h, if_pos (show jsSortRel a.2 b.2 from h)]
      rfl
    · rw [if_neg h, if_neg (show ¬ jsSortRel a.2 b.2 from h), List.map_cons, ih]

/-- Helper: `sortJS` is the index-dropped image of the indexed JS sort. -/
theorem sortJS_eq_map_snd (l : List (SearchResult α)) :
    ∀ n : ℕ, sortJS l = (List.insertionSort jsSortRel2 (List.enumFrom n l)).map Prod.snd := by
  induction l with
  | nil => intro n; rfl
  | cons x xs ih =>
    intro n
    show List.orderedInsert jsSortRel x (List.insertionSort jsSortRel xs) = _
    rw [show List.enumFrom n (x :: xs) = (n, x) :: List.enumFrom (n + 1) xs from rfl]
    rw [show List.insertionSort jsSortRel2 ((n, x) :: List.enumFrom (n + 1) xs) =
      List.orderedInsert jsSortRel2 (n, x)
        (List.insertionSort jsSortRel2 (List.enumFrom (n + 1) xs)) from rfl]
    rw [map_snd_orderedInsert, ← ih (n + 1)]
    rfl

end SortProofs

/-- Claim C1 (amended): `search(q, k)` ALWAYS returns at most `k` results,
each with similarity strictly above `0.1`; and PROVIDED every stored
document's cosine similarity against the query vector is non-NaN, the
results are sorted by non-increasing similarity with ties broken by
store-insertion order (the stable sort equals the lexicographic
descending-similarity-then-insertion-index sort).  When a similarity is NaN
(e.g. an all-zero embedding) the comparator is inconsistent, the ECMAScript
sort order is implementation-defined, and the surviving results can come
back out of order — see `search_nan_unsorted_cex`. -/
theorem search_topK_contract (queryVector : List (JNum ℝ))
    (documents : List (VectorDocument ℝ)) (topK : ℕ) :
    (search queryVector documents topK).length ≤ topK ∧
    (∀ r ∈ search queryVector documents topK,
      jltB (JNum.fin (1 / 10)) r.similarity = true) ∧
    ((∀ d ∈ documents, cosineSimilarity queryVector d.embedding ≠ JNum.nan) →
      List.Pairwise (fun r s => jleB s.similarity r.similarity = true)
        (search queryVector documents topK) ∧
      sortJS (resultsOf queryVector documents) =
        (sortLex ((resultsOf queryVector documents).enum)).map Prod.snd) := by
  have hsims : (∀ d ∈ documents, cosineSimilarity queryVector d.embedding ≠ JNum.nan) →
      ∀ r ∈ resultsOf queryVector documents, r.similarity ≠ JNum.nan := by
    intro h r hr
    obtain ⟨d, hd', rfl⟩ := List.mem_map.mp hr
    exact h d hd'
  have hagree : (∀ r ∈ resultsOf queryVector documents, r.similarity ≠ JNum.nan) →
      sortJS (resultsOf queryVector documents) =
        (sortLex ((resultsOf queryVector documents).enum)).map Prod.snd := by
    intro hs
    rw [sortJS_eq_map_snd _ 0]
    rw [show (resultsOf queryVector documents).enum =
      List.enumFrom 0 (resultsOf queryVector documents) from rfl]
    rw [insertionSort_agree _ 0 hs]
  have hsorted : (∀ r ∈ resultsOf queryVector documents, r.similarity ≠ JNum.nan) →
      List.Pairwise (fun r s => jleB s.similarity r.similarity = true)
        (sortJS (resultsOf queryVector documents)) := by
    intro hs
    rw [hagree hs]
    have hP : ∀ p ∈ sortLex ((resultsOf queryVector documents).enum),
        p.2.similarity ≠ JNum.nan := by
      intro p hp
      exact hs p.2 (snd_mem_of_mem_enumFrom
        ((List.perm_insertionSort lexRel _).mem_iff.mp hp))
    have hlex : List.Pairwise lexRel (sortLex ((resultsOf queryVector documents).enum)) := by
      apply sortLex_sorted
      intro p hp
      exact hs p.2 (snd_mem_of_mem_enumFrom hp)
    have hp2 : List.Pairwise (fun p q : ℕ × SearchResult ℝ =>
        jleB q.2.similarity p.2.similarity = true)
        (sortLex ((resultsOf queryVector documents).enum)) := by
      refine List.Pairwise.imp_of_mem ?_ hlex
      intro p q hp hq hr
      rcases hr with hlt | ⟨he, _⟩
      · exact jltB_le _ _ hlt
      · rw [← he]
        exact jleB_refl _ (hP p hp)
    exact List.pairwise_map.mpr hp2
  by_cases hd : documents.length = 0
  · have hdocs : documents = [] := List.length_eq_zero.mp hd
    subst hdocs
    have hsearch : search queryVector [] topK = [] := rfl
    refine ⟨by rw [hsearch]; simp, ?_, ?_⟩
    · intro r hr
      rw [hsearch] at hr
      cases hr
    · intro h
      exact ⟨by rw [hsearch]; simp, rfl⟩
  · rw [search, if_neg hd]
    refine ⟨?_, ?_, ?_⟩
    · exact le_trans (List.length_filter_le _ _)
        (by rw [List.length_take]; exact min_le_left _ _)
    · intro r hr
      have h2 : aboveCutoff r = true := List.of_mem_filter hr
      exact h2
    · intro h
      refine ⟨?_, hagree (hsims h)⟩
      exact (hsorted (hsims h)).sublist
        ((List.filter_sublist _).trans (List.take_sublist _ _))

/-- Helper: the cosine similarity of `docA` against `qv0` is `3/5`. -/
theorem cos_qv0_docA : cosineSimilarity qv0 docA.embedding = JNum.fin (3 / 5) := by
  show jdiv (JNum.fin ((0 : ℝ) + 1 * 3 + 0 * 4))
      (jmul (jsqrt (JNum.fin ((0 : ℝ) + 1 * 1 + 0 * 0)))
        (jsqrt (JNum.fin ((0 : ℝ) + 3 * 3 + 4 * 4)))) = JNum.fin (3 / 5)
  rw [show ((0 : ℝ) + 1 * 3 + 0 * 4) = 3 by norm_num]
  rw [show ((0 : ℝ) + 1 * 1 + 0 * 0) = 1 by norm_num]
  rw [show ((0 : ℝ) + 3 * 3 + 4 * 4) = 25 by norm_num]
  rw [show jsqrt (JNum.fin (1 : ℝ)) = JNum.fin 1 by
    rw [jsqrt, if_neg (by norm_num), Real.sqrt_one]]
  rw [show jsqrt (JNum.fin (25 : ℝ)) = JNum.fin 5 by
    rw [jsqrt, if_neg (by norm_num), show (25 : ℝ) = 5 ^ 2 by norm_num,
      Real.sqrt_sq (by norm_num : (0 : ℝ) ≤ 5)]]
  rw [show jmul (JNum.fin (1 : ℝ)) (JNum.fin 5) = JNum.fin 5 by rw [jmul]; norm_num]
  rw [jdiv, if_neg (by norm_num : ¬ (5 : ℝ) = 0)]

/-- Helper: the cosine similarity of the all-zero `docB` against `qv0` is
NaN (the division is `0/0`). -/
theorem cos_qv0_docB : cosineSimilarity qv0 docB.embedding = JNum.nan := by
  show jdiv (JNum.fin ((0 : ℝ) + 1 * 0 + 0 * 0))
      (jmul (jsqrt (JNum.fin ((0 : ℝ) + 1 * 1 + 0 * 0)))
        (jsqrt (JNum.fin ((0 : ℝ) + 0 * 0 + 0 * 0)))) = JNum.nan
  rw [show ((0 : ℝ) + 1 * 0 + 0 * 0) = 0 by norm_num]
  rw [show ((0 : ℝ) + 1 * 1 + 0 * 0) = 1 by norm_num]
  rw [show ((0 : ℝ) + 0 * 0 + 0 * 0) = 0 by norm_num]
  rw [show jsqrt (JNum.fin (1 : ℝ)) = JNum.fin 1 by
    rw [jsqrt, if_neg (by norm_num), Real.sqrt_one]]
  rw [show jsqrt (JNum.fin (0 : ℝ)) = JNum.fin 0 by
    rw [jsqrt, if_neg (lt_irrefl 0), Real.sqrt_zero]]
  rw [show jmul (JNum.fin (1 : ℝ)) (JNum.fin 0) = JNum.fin 0 by rw [jmul]; norm_num]
  exact jdiv_zero_zero

/-- Helper: the cosine similarity of `docC` against `qv0` is `1`. -/
theorem cos_qv0_docC : cosineSimilarity qv0 docC.embedding = JNum.fin 1 := by
  show jdiv (JNum.fin ((0 : ℝ) + 1 * 2 + 0 * 0))
      (jmul (jsqrt (JNum.fin ((0 : ℝ) + 1 * 1 + 0 * 0)))
        (jsqrt (JNum.fin ((0 : ℝ) + 2 * 2 + 0 * 0)))) = JNum.fin 1
  rw [show ((0 : ℝ) + 1 * 2 + 0 * 0) = 2 by norm_num]
  rw [show ((0 : ℝ) + 1 * 1 + 0 * 0) = 1 by norm_num]
  rw [show ((0 : ℝ) + 2 * 2 + 0 * 0) = 4 by norm_num]
  rw [show jsqrt (JNum.fin (1 : ℝ)) = JNum.fin 1 by
    rw [jsqrt, if_neg (by norm_num), Real.sqrt_one]]
  rw [show jsqrt (JNum.fin (4 : ℝ)) = JNum.fin 2 by
    rw [jsqrt, if_neg (by norm_num), show (4 : ℝ) = 2 ^ 2 by norm_num,
      Real.sqrt_sq (by norm_num : (0 : ℝ) ≤ 2)]]
  rw [show jmul (JNum.fin (1 : ℝ)) (JNum.fin 2) = JNum.fin 2 by rw [jmul]; norm_num]
  rw [jdiv, if_neg (by norm_num : ¬ (2 : ℝ) = 0)]
  norm_num

/-- Claim C1 (counterexample): on the store `[docA, docB, docC]` — where
`docB`'s all-zero embedding makes its similarity NaN — `search` returns
`[docA (0.6), docC (1)]`, which is NOT sorted by descending similarity: the
NaN comparator values make the stable sort leave `docA` in front. -/
theorem search_nan_unsorted_cex :
    ¬ List.Pairwise (fun r s : SearchResult ℝ => jleB s.similarity r.similarity = true)
      (search qv0 [docA, docB, docC] 5) := by
  have hres : resultsOf qv0 [docA, docB, docC] =
      [⟨docA, JNum.fin (3 / 5)⟩, ⟨docB, JNum.nan⟩, ⟨docC, JNum.fin 1⟩] := by
    simp only [resultsOf, List.map_cons, List.map_nil, cos_qv0_docA, cos_qv0_docB, cos_qv0_docC]
  have h2 : List.orderedInsert jsSortRel (⟨docB, JNum.nan⟩ : SearchResult ℝ)
      [⟨docC, JNum.fin 1⟩] = [⟨docB, JNum.nan⟩, ⟨docC, JNum.fin 1⟩] := by
    rw [List.orderedInsert,
      if_pos (show jsSortRel (⟨docB, JNum.nan⟩ : SearchResult ℝ) ⟨docC, JNum.fin 1⟩ from rfl)]
  have h3 : List.orderedInsert jsSortRel (⟨docA, JNum.fin (3 / 5)⟩ : SearchResult ℝ)
      [⟨docB, JNum.nan⟩, ⟨docC, JNum.fin 1⟩] =
      [⟨docA, JNum.fin (3 / 5)⟩, ⟨docB, JNum.nan⟩, ⟨docC, JNum.fin 1⟩] := by
    rw [List.orderedInsert,
      if_pos (show jsSortRel (⟨docA, JNum.fin (3 / 5)⟩ : SearchResult ℝ)
        ⟨docB, JNum.nan⟩ from rfl)]
  have hsort : sortJS [(⟨docA, JNum.fin (3 / 5)⟩ : SearchResult ℝ),
      ⟨docB, JNum.nan⟩, ⟨docC, JNum.fin 1⟩] =
      [⟨docA, JNum.fin (3 / 5)⟩, ⟨docB, JNum.nan⟩, ⟨docC, JNum.fin 1⟩] := by
    show List.orderedInsert jsSortRel ⟨docA, JNum.fin (3 / 5)⟩
        (List.orderedInsert jsSortRel ⟨docB, JNum.nan⟩
          (List.orderedInsert jsSortRel ⟨docC, JNum.fin 1⟩ [])) = _
    rw [show List.orderedInsert jsSortRel (⟨docC, JNum.fin 1⟩ : SearchResult ℝ) [] =
      [⟨docC, JNum.fin 1⟩] from rfl, h2, h3]
  have hfA : aboveCutoff (⟨docA, JNum.fin (3 / 5)⟩ : SearchResult ℝ) = true :=
    decide_eq_true (by norm_num : (1 : ℝ) / 10 < 3 / 5)
  have hfB : aboveCutoff (⟨docB, JNum.nan⟩ : SearchResult ℝ) = false := rfl
  have hfC : aboveCutoff (⟨docC, JNum.fin 1⟩ : SearchResult ℝ) = true :=
    decide_eq_true (by norm_num : (1 : ℝ) / 10 < 1)
  have hsearch : search qv0 [docA, docB, docC] 5 =
      [⟨docA, JNum.fin (3 / 5)⟩, ⟨docC, JNum.fin 1⟩] := by
    rw [search, if_neg (by simp : ¬ ([docA, docB, docC].length = 0)), hres, hsort]
    rw [show List.take 5 [(⟨docA, JNum.fin (3 / 5)⟩ : SearchResult ℝ),
      ⟨docB, JNum.nan⟩, ⟨docC, JNum.fin 1⟩] =
      [⟨docA, JNum.fin (3 / 5)⟩, ⟨docB, JNum.nan⟩, ⟨docC, JNum.fin 1⟩] from rfl]
    simp only [List.filter_cons, hfA, hfB, hfC, List.filter_nil]
    rfl
  rw [hsearch]
  intro hp
  have hrel := List.rel_of_pairwise_cons hp (List.mem_singleton.mpr rfl)
  have := of_decide_eq_true hrel
  norm_num at this

/-- Witness for `search_topK_contract` on the NaN-free store `[docA, docC]`. -/
theorem search_topK_contract_witness :
    (∀ d ∈ [docA, docC], cosineSimilarity qv0 d.embedding ≠ JNum.nan) ∧
    (List.Pairwise (fun r s : SearchResult ℝ => jleB s.similarity r.similarity = true)
        (search qv0 [docA, docC] 5) ∧
      sortJS (resultsOf qv0 [docA, docC]) =
        (sortLex ((resultsOf qv0 [docA, docC]).enum)).map Prod.snd) := by
  have hyp : ∀ d ∈ [docA, docC], cosineSimilarity qv0 d.embedding ≠ JNum.nan := by
    intro d hd
    rcases List.mem_cons.mp hd with rfl | hd'
    · rw [cos_qv0_docA]; simp
    · rw [List.mem_singleton.mp hd', cos_qv0_docC]; simp
  exact ⟨hyp, (search_topK_contract qv0 [docA, docC] 5).2.2 hyp⟩

end RAG
